import Mathlib

/-!
# Consistent Block Encrypter: `include/cbe/types.h`

A shallow embedding of the data model of the CBE (`namespace Cbe`) and of the
member functions defined in the header.

Conventions of the embedding

* `uint32_t` / `uint64_t` values are natural numbers; arithmetic that can wrap
  is written with an explicit `% U32` / `% U64`.
* A C++ shift whose count is not smaller than the width of the promoted left
  operand has no defined result; such an evaluation yields `none`.
* Scoped enumerations (`Tag`, `Operation`, `Success`) are represented by their
  underlying `uint32_t` value, because a field of such a type can hold any
  32-bit pattern.
* Fixed-size arrays indexed by a loop are functions on `Fin n`.
-/

namespace Cbe

/-! ## Basic types and constants -/

/-- Number of values of a `uint32_t`. -/
def U32 : Nat := 2 ^ 32

/-- Number of values of a `uint64_t`. -/
def U64 : Nat := 2 ^ 64

/-- Size of a disk sector in bytes (`static constexpr uint32_t BLOCK_SIZE`). -/
def BLOCK_SIZE : Nat := 4096

def INVALID_GEN : Nat := 18446744073709551615
def INVALID_PBA : Nat := 18446744073709551615
def INVALID_VBA : Nat := 18446744073709551615

abbrev Physical_block_address := Nat
abbrev Virtual_block_address := Nat
abbrev Generation := Nat
abbrev Height := Nat
abbrev Number_of_leaves := Nat
abbrev Degree := Nat

/-! ## Tags (`enum class Tag : uint32_t`) -/

abbrev Tag := Nat

def INVALID_TAG : Tag := 0x00
def IO_TAG : Tag := 0x10
def CACHE_TAG : Tag := 0x20
def CACHE_FLUSH_TAG : Tag := CACHE_TAG ||| 0x1
def CRYPTO_TAG : Tag := 0x30
def CRYPTO_TAG_DECRYPT : Tag := CRYPTO_TAG ||| 0x1
def CRYPTO_TAG_ENCRYPT : Tag := CRYPTO_TAG ||| 0x2
def POOL_TAG : Tag := 0x40
def SPLITTER_TAG : Tag := 0x50
def TRANSLATION_TAG : Tag := 0x60
def WRITE_BACK_TAG : Tag := 0x70
def SYNC_SB_TAG : Tag := 0x80
def RECLAIM_TAG : Tag := 0x90
def VBD_TAG : Tag := 0x100
def VBD_CACHE_TAG : Tag := VBD_TAG ||| CACHE_TAG
def FREE_TREE_TAG : Tag := 0x200
def FREE_TREE_TAG_IO : Tag := FREE_TREE_TAG ||| IO_TAG
def FREE_TREE_TAG_CACHE : Tag := FREE_TREE_TAG ||| CACHE_TAG
def FREE_TREE_TAG_WB : Tag := FREE_TREE_TAG ||| WRITE_BACK_TAG

/-- The enumerators of `Tag`, in declaration order. -/
def all_tags : List Tag :=
  [INVALID_TAG, IO_TAG, CACHE_TAG, CACHE_FLUSH_TAG, CRYPTO_TAG, CRYPTO_TAG_DECRYPT,
   CRYPTO_TAG_ENCRYPT, POOL_TAG, SPLITTER_TAG, TRANSLATION_TAG, WRITE_BACK_TAG,
   SYNC_SB_TAG, RECLAIM_TAG, VBD_TAG, VBD_CACHE_TAG, FREE_TREE_TAG,
    FREE_TREE_TAG_IO, FREE_TREE_TAG_CACHE, FREE_TREE_TAG_WB]

/-- Bits [23:16] of a tag: the meta-type of the layout comment above `Tag`. -/
def tag_meta_type (t : Tag) : Nat := (t >>> 16) &&& 0xFF

/-- Bits [15:8] of a tag: the type of the layout comment above `Tag`. -/
def tag_type (t : Tag) : Nat := (t >>> 8) &&& 0xFF

/-- Bits [7:0] of a tag: the sub-type of the layout comment above `Tag`. -/
def tag_sub_type (t : Tag) : Nat := t &&& 0xFF

/-! ## Operations and completion status (shared by `Request` and `Primitive`) -/

namespace Operation
def INVALID : Nat := 0
def READ : Nat := 1
def WRITE : Nat := 2
def SYNC : Nat := 3
end Operation

namespace Success
def FALSE : Nat := 0
def TRUE : Nat := 1
end Success

/-! ## `struct Request` -/

structure Request where
  operation : Nat
  success : Nat
  block_number : Nat
  offset : Nat
  count : Nat
  tag : Nat
deriving DecidableEq, Repr

namespace Request

def read (r : Request) : Bool := r.operation == Operation.READ
def write (r : Request) : Bool := r.operation == Operation.WRITE
def sync (r : Request) : Bool := r.operation == Operation.SYNC

def valid (r : Request) : Bool :=
  r.operation == Operation.READ
    || r.operation == Operation.WRITE
    || r.operation == Operation.SYNC

def equal (r rhs : Request) : Bool :=
  r.tag == rhs.tag
    && r.block_number == rhs.block_number
    && r.operation == rhs.operation

end Request

/-! ## `struct Primitive` -/

structure Primitive where
  tag : Tag
  operation : Nat
  success : Nat
  block_number : Nat
  index : Nat
deriving DecidableEq, Repr

namespace Primitive

def read (p : Primitive) : Bool := p.operation == Operation.READ
def write (p : Primitive) : Bool := p.operation == Operation.WRITE
def sync (p : Primitive) : Bool := p.operation == Operation.SYNC

def valid (p : Primitive) : Bool :=
  p.operation == Operation.READ
    || p.operation == Operation.WRITE
    || p.operation == Operation.SYNC

def equal (p rhs : Primitive) : Bool :=
  p.tag == rhs.tag
    && p.block_number == rhs.block_number
    && p.operation == rhs.operation

end Primitive

/-! ## `struct Tree_helper` -/

def TREE_MIN_DEGREE : Nat := 1
def TREE_MIN_HEIGHT : Nat := 1
def TREE_MAX_HEIGHT : Nat := 6

/-- The `for` loop of `_log2`: `n` is the number of iterations still to run, the
loop variable `i` of the next iteration is `n - 1`.  When no iteration is left
the function falls through to `return -1`. -/
def _log2_loop (value : Nat) : Nat → Nat
  | 0 => U32 - 1
  | i + 1 => if (((1 <<< i) % U32) &&& value) ≠ 0 then i else _log2_loop value i

/-- `static inline uint32_t _log2(uint32_t const value)`; the loop starts at
`i = 8 * sizeof(value) - 1 = 31`. -/
def _log2 (value : Nat) : Nat :=
  if value = 0 then U32 - 1 else _log2_loop value 32

structure Tree_helper where
  _degree : Degree
  _height : Height
  _leafs : Number_of_leaves
  _degree_log2 : Degree
  _degree_mask : Degree
deriving DecidableEq, Repr

namespace Tree_helper

/-- The constructor together with the default member initialisers
`_degree_log2 { _log2(_degree) }` and `_degree_mask { (1u << _degree_log2) - 1 }`.
The shift `1u << _degree_log2` is defined only for a count below 32. -/
def new (degree : Degree) (height : Height) (leafs : Number_of_leaves) :
    Option Tree_helper :=
  let degree_log2 := _log2 degree
  if degree_log2 < 32 then
    some { _degree := degree
           _height := height
           _leafs := leafs
           _degree_log2 := degree_log2
           _degree_mask := (((1 <<< degree_log2) % U32) + U32 - 1) % U32 }
  else none

/-- The member function `index`:
`return (vba >> (_degree_log2 * (level - 1)) & _degree_mask);`.
`level - 1` and the product are `uint32_t` computations, the shift is a 64-bit
shift (defined for a count below 64), the result is converted to `uint32_t`. -/
def index (t : Tree_helper) (vba : Virtual_block_address) (level : Nat) : Option Nat :=
  let count := (t._degree_log2 * ((level + U32 - 1) % U32)) % U32
  if count < 64 then some (((vba >>> count) &&& t._degree_mask) % U32) else none

def height (t : Tree_helper) : Height := t._height
def degree (t : Tree_helper) : Degree := t._degree
def leafs (t : Tree_helper) : Number_of_leaves := t._leafs

/-- Recombination of the slot indices of the levels `1..h` of a virtual block
address: the sum of `index(vba, l) * degree^(l-1)`; undefined as soon as one of
the indices is. -/
def recombine (t : Tree_helper) (vba : Virtual_block_address) : Nat → Option Nat
  | 0 => some 0
  | l + 1 =>
    match recombine t vba l, t.index vba (l + 1) with
    | some lower, some idx => some (lower + idx * t._degree ^ l)
    | _, _ => none

end Tree_helper

/-- A degree that is an exact power of two. -/
def is_power_of_two (d : Nat) : Prop := ∃ k : Nat, d = 2 ^ k

/-! ## `struct Hash`, `struct Key` -/

namespace Hash
def MAX_LENGTH : Nat := 32
end Hash

/-- The hash of a node: `char values[MAX_LENGTH]`. -/
structure Hash where
  values : List Nat
deriving DecidableEq, Repr

namespace Key
def KEY_SIZE : Nat := 64
end Key

/-- Key material, `char value[KEY_SIZE]`, and the key id (`struct Id`). -/
structure Key where
  value : List Nat
  id : Nat
deriving DecidableEq, Repr

/-! ## `struct Snapshot` -/

structure Snapshot where
  hash : Hash
  pba : Physical_block_address
  gen : Generation
  leaves : Number_of_leaves
  height : Height
  id : Nat
  flags : Nat
deriving DecidableEq, Repr

namespace Snapshot

/-- The enumerator `INVALID_ID = ~0U`. -/
def INVALID_ID : Nat := U32 - 1

def FLAGS_CLEAR : Nat := 0
def FLAG_KEEP : Nat := 1 <<< 0

def valid (s : Snapshot) : Bool := s.id != INVALID_ID

/-- The function `keep`: `return flags & FLAG_KEEP;` converted to `bool`. -/
def keep (s : Snapshot) : Bool := (s.flags &&& FLAG_KEEP) != 0

/-- The function `discard`: `id = Snapshot::INVALID_ID;`. -/
def discard (s : Snapshot) : Snapshot := { s with id := INVALID_ID }

end Snapshot

/-! ## `struct Super_block` -/

abbrev NUM_SUPER_BLOCKS : Nat := 8
abbrev NUM_SNAPSHOTS : Nat := 48

namespace Super_block
def NUM_KEYS : Nat := 2
def INVALID_SNAPSHOT_SLOT : Nat := NUM_SNAPSHOTS
end Super_block

structure Super_block where
  key : Fin 2 → Key
  snapshots : Fin NUM_SNAPSHOTS → Snapshot
  last_secured_generation : Generation
  snapshot_id : Nat
  degree : Degree
  free_gen : Generation
  free_number : Physical_block_address
  free_hash : Hash
  free_height : Height
  free_degree : Degree
  free_leaves : Number_of_leaves

namespace Super_block

/-- The `for` loop of `snapshot_slot`: `n` is the number of iterations still to
run, so the loop variable of the next iteration is `i = NUM_SNAPSHOTS - n`.
An invalid snapshot is skipped (`continue`), a valid one with the wanted id
ends the loop (`snap_slot = i; break;`); when the loop runs out `snap_slot`
still holds its initial value `INVALID_SNAPSHOT_SLOT`. -/
def snapshot_slot_loop (sb : Super_block) : Nat → Nat
  | 0 => INVALID_SNAPSHOT_SLOT
  | n + 1 =>
    if h : NUM_SNAPSHOTS - (n + 1) < NUM_SNAPSHOTS then
      let snap := sb.snapshots ⟨NUM_SNAPSHOTS - (n + 1), h⟩
      if !snap.valid then snapshot_slot_loop sb n
      else if snap.id == sb.snapshot_id then NUM_SNAPSHOTS - (n + 1)
      else snapshot_slot_loop sb n
    else INVALID_SNAPSHOT_SLOT

/-- The function `snapshot_slot`: the loop runs for `i = 0 .. NUM_SNAPSHOTS - 1`. -/
def snapshot_slot (sb : Super_block) : Nat := snapshot_slot_loop sb NUM_SNAPSHOTS

def valid (sb : Super_block) : Bool := sb.last_secured_generation != INVALID_GEN

end Super_block

/-! ## Node records and their sizes

Sizes are in bytes, with `uint64_t`, `uint32_t`, `bool` and `char` taking 8, 4,
1 and 1.  A structure occupies the sum of its members rounded up to its
alignment, a union the largest of its members rounded up to its alignment; the
anonymous structures below contain a `uint64_t` and so have alignment 8. -/

def sizeof_char : Nat := 1
def sizeof_bool : Nat := 1
def sizeof_uint32 : Nat := 4
def sizeof_uint64 : Nat := 8
def sizeof_Hash : Nat := Hash.MAX_LENGTH * sizeof_char
def sizeof_Key_Id : Nat := sizeof_uint32

/-- Round `n` up to the next multiple of the alignment `a`. -/
def align_up (n a : Nat) : Nat := (n + a - 1) / a * a

namespace Type_i_node
def MAX_NODE_SIZE : Nat := 64

/-- Bytes taken by the members `pba`, `gen`, `hash`. -/
def fields_size : Nat := sizeof_uint64 + sizeof_uint64 + sizeof_Hash

/-- Size of the anonymous structure holding the members (alignment 8). -/
def struct_size : Nat := align_up fields_size 8
end Type_i_node

/-- The expression `sizeof (Type_i_node)`: the union of the members and `char data[MAX_NODE_SIZE]`. -/
def sizeof_Type_i_node : Nat :=
  align_up (max Type_i_node.struct_size (Type_i_node.MAX_NODE_SIZE * sizeof_char)) 8

def TYPE_1_PER_BLOCK : Nat := BLOCK_SIZE / sizeof_Type_i_node

namespace Type_ii_node
def MAX_NODE_SIZE : Nat := 64

/-- Bytes taken by the members `pba`, `last_vba`, `alloc_gen`, `free_gen`,
`last_key_id`, `reserved`. -/
def fields_size : Nat :=
  sizeof_uint64 + sizeof_uint64 + sizeof_uint64 + sizeof_uint64 + sizeof_Key_Id + sizeof_bool

/-- Size of the anonymous structure holding the members (alignment 8). -/
def struct_size : Nat := align_up fields_size 8
end Type_ii_node

/-- The expression `sizeof (Type_ii_node)`: the union of the members and `char data[MAX_NODE_SIZE]`. -/
def sizeof_Type_ii_node : Nat :=
  align_up (max Type_ii_node.struct_size (Type_ii_node.MAX_NODE_SIZE * sizeof_char)) 8

def TYPE_2_PER_BLOCK : Nat := BLOCK_SIZE / sizeof_Type_ii_node

/-! ## Node records as values

The members of `Type_i_node`, `Type_1_node_info` and `Type_ii_node`. -/

structure Type_i_node where
  pba : Physical_block_address
  gen : Generation
  hash : Hash
deriving DecidableEq, Repr

structure Type_1_node_info where
  pba : Physical_block_address
  gen : Generation
  hash : Hash
deriving DecidableEq, Repr

structure Type_ii_node where
  pba : Physical_block_address
  last_vba : Virtual_block_address
  alloc_gen : Generation
  free_gen : Generation
  last_key_id : Nat
  reserved : Bool
deriving DecidableEq, Repr

/-- Modelled from the spec: the header has no marshalling function, a record is
a union of its members with `char data[MAX_NODE_SIZE]`.  The bytes of an
unsigned value of `w` bytes, least significant byte first (the fixed-offset
encoding the design notes ask for). -/
def le_bytes (n : Nat) : Nat → List Nat
  | 0 => []
  | w + 1 => n % 256 :: le_bytes (n / 256) w

/-- Modelled from the spec: the header has no marshalling function.  The
unsigned value of a sequence of bytes, least significant byte first. -/
def le_value : List Nat → Nat
  | [] => 0
  | b :: bs => b + 256 * le_value bs

namespace Type_i_node

/-- Modelled from the spec: the header has no marshalling function.  The
64-byte data image of a type 1 node: `pba` at offset 0, `gen` at offset 8,
`hash` at offset 16, the remaining 16 bytes zero. -/
def encode (n : Type_i_node) : List Nat :=
  le_bytes n.pba 8 ++ le_bytes n.gen 8 ++ n.hash.values ++ List.replicate 16 0

/-- Modelled from the spec: the header has no marshalling function.  The
members read back from a data image. -/
def decode (data : List Nat) : Type_i_node :=
  { pba := le_value (data.take 8)
    gen := le_value ((data.drop 8).take 8)
    hash := ⟨(data.drop 16).take Hash.MAX_LENGTH⟩ }

/-- Modelled from the spec: the header has no conversion function.  The
in-memory working form of a decoded type 1 node. -/
def info (n : Type_i_node) : Type_1_node_info :=
  { pba := n.pba, gen := n.gen, hash := n.hash }

end Type_i_node

namespace Type_ii_node

/-- Modelled from the spec: the header has no marshalling function.  The
64-byte data image of a type 2 node: `pba`, `last_vba`, `alloc_gen`,
`free_gen` at offsets 0, 8, 16, 24, `last_key_id` at offset 32, `reserved` at
offset 36, the remaining 27 bytes zero. -/
def encode (n : Type_ii_node) : List Nat :=
  le_bytes n.pba 8 ++ le_bytes n.last_vba 8 ++ le_bytes n.alloc_gen 8 ++
    le_bytes n.free_gen 8 ++ le_bytes n.last_key_id 4 ++
    [if n.reserved then 1 else 0] ++ List.replicate 27 0

/-- Modelled from the spec: the header has no marshalling function.  The
members read back from a data image. -/
def decode (data : List Nat) : Type_ii_node :=
  { pba := le_value (data.take 8)
    last_vba := le_value ((data.drop 8).take 8)
    alloc_gen := le_value ((data.drop 16).take 8)
    free_gen := le_value ((data.drop 24).take 8)
    last_key_id := le_value ((data.drop 32).take 4)
    reserved := (data.drop 36).head? != some 0 }

end Type_ii_node

namespace Super_block

/-- The statement `snapshots[i].discard();` applied to a super-block. -/
def discard_slot (sb : Super_block) (i : Fin NUM_SNAPSHOTS) : Super_block :=
  { sb with snapshots := fun j => if j = i then (sb.snapshots j).discard else sb.snapshots j }

end Super_block

/-- A super-block whose slot `i` holds a snapshot with id `i + 100` and whose
active snapshot id is 107 (used to evaluate `snapshot_slot` on a concrete
directory). -/
def example_super_block : Super_block :=
  { key := fun _ => ⟨[], 0⟩
    snapshots := fun i => ⟨⟨[]⟩, 0, i.val, 0, 0, i.val + 100, 0⟩
    last_secured_generation := 47
    snapshot_id := 107
    degree := 64
    free_gen := 0
    free_number := 0
    free_hash := ⟨[]⟩
    free_height := 0
    free_degree := 0
    free_leaves := 0 }

/-! ## Sizes of `Key`, `Snapshot`, `Super_block`, `Block_data` -/

/-- Size of a structure whose members have the given sizes and alignments, in
declaration order: every member starts at the next multiple of its alignment
and the total is rounded up to the largest alignment.  A packed structure is
the case where every alignment is 1. -/
def struct_layout (members : List (Nat × Nat)) : Nat :=
  align_up (members.foldl (fun offset m => align_up offset m.2 + m.1) 0)
    (members.foldl (fun a m => max a m.2) 1)

/-- The expression `sizeof (Key)`: packed, `char value[KEY_SIZE]` and `Id id`. -/
def sizeof_Key : Nat := struct_layout [(Key.KEY_SIZE * sizeof_char, 1), (sizeof_Key_Id, 1)]

namespace Snapshot

/-- Bytes taken by the members `hash`, `pba`, `gen`, `leaves`, `height`, `id`
and `flags`, without any padding. -/
def fields_size : Nat :=
  sizeof_Hash + sizeof_uint64 + sizeof_uint64 + sizeof_uint64 + sizeof_uint32 +
    sizeof_uint32 + sizeof_uint32

/-- Size of the anonymous structure holding `hash`, `pba`, `gen`, `leaves` and
`height`, with the natural alignment of its members. -/
def info_struct_size : Nat :=
  struct_layout [(sizeof_Hash, 1), (sizeof_uint64, 8), (sizeof_uint64, 8), (sizeof_uint64, 8),
    (sizeof_uint32, 4)]

end Snapshot

/-- The expression `sizeof (Snapshot)`: packed, the anonymous structure followed
by `id` and `flags`. -/
def sizeof_Snapshot : Nat :=
  struct_layout [(Snapshot.info_struct_size, 1), (sizeof_uint32, 1), (sizeof_uint32, 1)]

namespace Super_block

/-- The members of the anonymous structure of `Super_block` as sizes and
alignments, for a given size of one snapshot. -/
def members (snapshot_size : Nat) : List (Nat × Nat) :=
  [(NUM_KEYS * sizeof_Key, 1), (NUM_SNAPSHOTS * snapshot_size, 1), (sizeof_uint64, 8),
   (sizeof_uint32, 4), (sizeof_uint32, 4), (sizeof_uint64, 8), (sizeof_uint64, 8),
   (sizeof_Hash, 1), (sizeof_uint32, 4), (sizeof_uint32, 4), (sizeof_uint64, 8)]

/-- Bytes taken by the members of `Super_block` without any padding, every
snapshot counted with the bytes of its members. -/
def fields_size : Nat := ((members Snapshot.fields_size).map Prod.fst).sum

/-- Size of the anonymous structure holding the members. -/
def struct_size : Nat := struct_layout (members sizeof_Snapshot)

end Super_block

/-- The expression `sizeof (Block_data)`: `char values[BLOCK_SIZE]`. -/
def sizeof_Block_data : Nat := BLOCK_SIZE * sizeof_char

/-- The expression `sizeof (Super_block)`: the union of the members and `char data[BLOCK_SIZE]`. -/
def sizeof_Super_block : Nat :=
  align_up (max Super_block.struct_size (BLOCK_SIZE * sizeof_char)) 8

/-- The condition of `static_assert(sizeof (Super_block) <= sizeof (Block_data), ...)`. -/
def super_block_static_assert : Bool := decide (sizeof_Super_block ≤ sizeof_Block_data)

/-! ## Tags by role -/

/-- The enumerators that name a meta-module. -/
def meta_tags : List Tag := [VBD_TAG, FREE_TREE_TAG]

/-- The enumerators below `0x100` other than `INVALID_TAG`: modules and their
sub-types. -/
def module_tags : List Tag :=
  [ IO_TAG, CACHE_TAG, CACHE_FLUSH_TAG, CRYPTO_TAG, CRYPTO_TAG_DECRYPT, CRYPTO_TAG_ENCRYPT,
   POOL_TAG, SPLITTER_TAG, TRANSLATION_TAG, WRITE_BACK_TAG, SYNC_SB_TAG, RECLAIM_TAG]

/-! # Properties -/


/-! ### Auxiliary facts about `_log2` -/

theorem log2_loop_bounds (value : Nat) :
    ∀ n : Nat, n ≤ 32 → value ≠ 0 → value < 2 ^ n →
      _log2_loop value n < n ∧ 2 ^ _log2_loop value n ≤ value ∧
        value < 2 ^ (_log2_loop value n + 1) := by
  intro n
  induction n with
  | zero =>
    intro _ h0 hlt
    simp at hlt
    exact absurd hlt h0
  | succ n ih =>
    intro hn h0 hlt
    have hmod : (1 <<< n) % U32 = 2 ^ n := by
      rw [Nat.one_shiftLeft]
      apply Nat.mod_eq_of_lt
      unfold U32
      exact Nat.pow_lt_pow_right (by decide) (by omega)
    unfold _log2_loop
    rw [hmod, Nat.two_pow_and]
    cases hb : value.testBit n with
    | true =>
      simp
      exact ⟨Nat.testBit_implies_ge hb, hlt⟩
    | false =>
      simp
      have hdiv : value / 2 ^ n < 2 := by
        rw [Nat.div_lt_iff_lt_mul (Nat.pow_pos (by decide))]
        rw [Nat.pow_succ] at hlt
        omega
      have hbit := hb
      rw [Nat.testBit_to_div_mod] at hbit
      simp at hbit
      have hz : value / 2 ^ n = 0 := by
        generalize value / 2 ^ n = q at hdiv hbit
        omega
      have hlt2 : value < 2 ^ n := by
        rcases Nat.lt_or_ge value (2 ^ n) with h | h
        · exact h
        · have := Nat.div_pos h (Nat.pow_pos (by decide : 0 < 2))
          omega
      obtain ⟨h1, h2, h3⟩ := ih (by omega) h0 hlt2
      exact ⟨by omega, h2, h3⟩

theorem log2_bounds (v : Nat) (hv : v < U32) (h0 : 0 < v) :
    _log2 v ≤ 31 ∧ 2 ^ _log2 v ≤ v ∧ v < 2 ^ (_log2 v + 1) := by
  have h := log2_loop_bounds v 32 (le_refl _) (by omega) (by unfold U32 at hv; exact hv)
  unfold _log2
  rw [if_neg (by omega)]
  exact ⟨by omega, h.2.1, h.2.2⟩

theorem log2_two_pow (k : Nat) (hk : k < 32) : _log2 (2 ^ k) = k := by
  have hlt : 2 ^ k < U32 := by
    unfold U32
    exact Nat.pow_lt_pow_right (by decide) hk
  obtain ⟨_, h2, h3⟩ := log2_bounds (2 ^ k) hlt (Nat.pow_pos (by decide))
  have a := (Nat.pow_le_pow_iff_right (by decide : 1 < 2)).1 h2
  have b := (Nat.pow_lt_pow_iff_right (by decide : 1 < 2)).1 h3
  omega


theorem mask_eq (k : Nat) (hk : k < 32) :
    (((1 <<< k) % U32) + U32 - 1) % U32 = 2 ^ k - 1 := by
  have hlt : 2 ^ k < U32 := by
    unfold U32
    exact Nat.pow_lt_pow_right (by decide) hk
  have hpos : 0 < 2 ^ k := Nat.pow_pos (by decide)
  rw [Nat.one_shiftLeft, Nat.mod_eq_of_lt hlt]
  have h1 : 2 ^ k + U32 - 1 = (2 ^ k - 1) + U32 := by omega
  rw [h1, Nat.add_mod_right]
  exact Nat.mod_eq_of_lt (by omega)

theorem new_eq (d h n : Nat) (hd : 0 < d) (hd32 : d < U32) :
    Tree_helper.new d h n =
      some { _degree := d, _height := h, _leafs := n,
             _degree_log2 := _log2 d, _degree_mask := 2 ^ _log2 d - 1 } := by
  have hb := log2_bounds d hd32 hd
  have hk : _log2 d < 32 := by omega
  unfold Tree_helper.new
  simp only [hk, if_true, mask_eq _ hk]

theorem index_eq (t : Tree_helper) (vba l : Nat) (hk : t._degree_log2 < 32)
    (hmask : t._degree_mask = 2 ^ t._degree_log2 - 1) (hl1 : 1 ≤ l) (hl32 : l < U32)
    (hcount : t._degree_log2 * (l - 1) < 64) :
    t.index vba l = some (vba / 2 ^ (t._degree_log2 * (l - 1)) % 2 ^ t._degree_log2) := by
  have hlevel : (l + U32 - 1) % U32 = l - 1 := by
    have h1 : l + U32 - 1 = (l - 1) + U32 := by omega
    rw [h1, Nat.add_mod_right]
    exact Nat.mod_eq_of_lt (by omega)
  have hc : (t._degree_log2 * (l - 1)) % U32 = t._degree_log2 * (l - 1) :=
    Nat.mod_eq_of_lt (lt_trans hcount (by unfold U32; norm_num))
  have hlt : vba / 2 ^ (t._degree_log2 * (l - 1)) % 2 ^ t._degree_log2 < U32 := by
    have h1 : vba / 2 ^ (t._degree_log2 * (l - 1)) % 2 ^ t._degree_log2 < 2 ^ t._degree_log2 :=
      Nat.mod_lt _ (Nat.pow_pos (by decide))
    have h2 : 2 ^ t._degree_log2 < U32 := by
      unfold U32
      exact Nat.pow_lt_pow_right (by decide) hk
    omega
  unfold Tree_helper.index
  simp only [hlevel, hc, hcount, if_true, hmask, Nat.shiftRight_eq_div_pow,
    Nat.and_pow_two_sub_one_eq_mod]
  rw [Nat.mod_eq_of_lt hlt]


theorem recombine_eq (t : Tree_helper) (vba h : Nat) (hk : t._degree_log2 < 32)
    (hmask : t._degree_mask = 2 ^ t._degree_log2 - 1) (hdeg : t._degree = 2 ^ t._degree_log2)
    (hh : h < U32) (hcount : t._degree_log2 * (h - 1) < 64) :
    ∀ m : Nat, m ≤ h → t.recombine vba m = some (vba % t._degree ^ m) := by
  intro m
  induction m with
  | zero =>
    intro _
    show some 0 = some (vba % t._degree ^ 0)
    rw [Nat.pow_zero, Nat.mod_one]
  | succ m ih =>
    intro hm
    have hm1 : 1 ≤ m + 1 := Nat.succ_le_succ (Nat.zero_le _)
    have hm2 : m + 1 < U32 := lt_of_le_of_lt hm hh
    have hle : m + 1 - 1 ≤ h - 1 := Nat.sub_le_sub_right hm 1
    have hc : t._degree_log2 * (m + 1 - 1) < 64 :=
      lt_of_le_of_lt (Nat.mul_le_mul_left _ hle) hcount
    have hi := index_eq t vba (m + 1) hk hmask hm1 hm2 hc
    have ih2 := ih (Nat.le_of_succ_le hm)
    rw [Tree_helper.recombine]
    simp only [ih2, hi, Nat.add_sub_cancel]
    have hp : t._degree ^ m = 2 ^ (t._degree_log2 * m) := by rw [hdeg, Nat.pow_mul]
    have key : vba % t._degree ^ (m + 1) =
        vba % t._degree ^ m + t._degree ^ m * (vba / t._degree ^ m % t._degree) :=
      Nat.mod_pow_succ
    rw [key, ← hp, ← hdeg, Nat.mul_comm (t._degree ^ m)]


/-- If two addresses have the same slot index at every level `1..m` their
recombinations over these levels agree. -/
theorem recombine_congr (t : Tree_helper) (a b : Nat) :
    ∀ m : Nat, (∀ l, 1 ≤ l → l ≤ m → t.index a l = t.index b l) →
      t.recombine a m = t.recombine b m := by
  intro m
  induction m with
  | zero => intro _; rfl
  | succ m ih =>
    intro hall
    rw [Tree_helper.recombine, Tree_helper.recombine,
      ih (fun l h1 h2 => hall l h1 (Nat.le_succ_of_le h2)),
      hall (m + 1) (Nat.succ_le_succ (Nat.zero_le _)) (le_refl _)]

theorem pow_two_lt_U32 (k : Nat) (h : 2 ^ k < U32) : k < 32 := by
  unfold U32 at h
  exact (Nat.pow_lt_pow_iff_right (by decide : 1 < 2)).1 h

/-! ### Tree addressing -/

/-- C8: `_log2` is the integer base-2 logarithm.  It is a total function; for a
32-bit value `v > 0` the result `r` satisfies `r ≤ 31` and `2^r ≤ v < 2^(r+1)`,
and `2^r = v` exactly when `v` is a power of two; for `v = 0` the result is the
sentinel `2^32 - 1`. -/
theorem log2_spec (v : Nat) (hv : v < U32) :
    (0 < v → _log2 v ≤ 31 ∧ 2 ^ _log2 v ≤ v ∧ v < 2 ^ (_log2 v + 1) ∧
      (2 ^ _log2 v = v ↔ is_power_of_two v)) ∧
    (v = 0 → _log2 v = 2 ^ 32 - 1) := by
  constructor
  · intro h0
    obtain ⟨h1, h2, h3⟩ := log2_bounds v hv h0
    refine ⟨h1, h2, h3, ?_, ?_⟩
    · intro h
      exact ⟨_log2 v, h.symm⟩
    · rintro ⟨k, rfl⟩
      rw [log2_two_pow k (pow_two_lt_U32 k hv)]
  · intro h0
    subst h0
    rfl

/-- Witness for C8 at the value 40, whose logarithm is 5. -/
theorem log2_spec_witness :
    40 < U32 ∧ _log2 40 ≤ 31 ∧ 2 ^ _log2 40 ≤ 40 ∧ 40 < 2 ^ (_log2 40 + 1) :=
  have h : 40 < U32 := by unfold U32; norm_num
  ⟨h, ((log2_spec 40 h).1 (by decide)).1, ((log2_spec 40 h).1 (by decide)).2.1,
    ((log2_spec 40 h).1 (by decide)).2.2.1⟩

/-- The helper built for a power-of-two degree `2^k`. -/
theorem new_two_pow (k h n : Nat) (hk : k < 32) :
    Tree_helper.new (2 ^ k) h n =
      some { _degree := 2 ^ k, _height := h, _leafs := n,
             _degree_log2 := k, _degree_mask := 2 ^ k - 1 } := by
  have hlt : 2 ^ k < U32 := by
    unfold U32
    exact Nat.pow_lt_pow_right (by decide) hk
  rw [new_eq (2 ^ k) h n (Nat.pow_pos (by decide)) hlt, log2_two_pow k hk]

/-- C2 (amended): for a helper built with a power-of-two degree `d`, every
`vba` and every level `l` with `1 ≤ l ≤ height` whose shift count
`log2(d) * (l-1)` is below 64, `index(vba, l)` is defined, equals
`(vba >> (log2(d) * (l-1))) & (d-1)`, that is `floor(vba / d^(l-1)) mod d`, and
is strictly less than `d`. -/
theorem index_spec (d height leafs vba l : Nat) (hd : is_power_of_two d) (hd32 : d < U32)
    (hl1 : 1 ≤ l) (hlh : l ≤ height) (hh : height < U32)
    (hcount : _log2 d * (l - 1) < 64) :
    ∃ t, Tree_helper.new d height leafs = some t ∧
      t.index vba l = some ((vba >>> (_log2 d * (l - 1))) &&& (d - 1)) ∧
      t.index vba l = some (vba / d ^ (l - 1) % d) ∧
      vba / d ^ (l - 1) % d < d := by
  obtain ⟨k, rfl⟩ := hd
  have hk : k < 32 := pow_two_lt_U32 k hd32
  rw [log2_two_pow k hk] at hcount ⊢
  refine ⟨_, new_two_pow k height leafs hk, ?_, ?_, Nat.mod_lt _ (Nat.pow_pos (by decide))⟩
  · rw [index_eq _ vba l hk rfl hl1 (lt_of_le_of_lt hlh hh) hcount,
      Nat.shiftRight_eq_div_pow, Nat.and_pow_two_sub_one_eq_mod]
  · rw [index_eq _ vba l hk rfl hl1 (lt_of_le_of_lt hlh hh) hcount, ← Nat.pow_mul]

/-- Witness for C2: degree 64, height 3, level 2 of the address 74565. -/
theorem index_spec_witness :
    ∃ t, Tree_helper.new 64 3 262144 = some t ∧
      t.index 74565 2 = some ((74565 >>> (_log2 64 * (2 - 1))) &&& (64 - 1)) ∧
      t.index 74565 2 = some (74565 / 64 ^ (2 - 1) % 64) ∧
      74565 / 64 ^ (2 - 1) % 64 < 64 :=
  index_spec 64 3 262144 74565 2 ⟨6, by norm_num⟩ (by unfold U32; norm_num) (by decide)
    (by decide) (by unfold U32; norm_num) (by decide)

/-- C2 as stated fails: with the power-of-two degree 65536 and height 5 the
helper is built, level 5 lies within `1..height`, yet the shift count is
`16 * 4 = 64`, so `index(1, 5)` has no defined value, while
`floor(1 / 65536^4) mod 65536` is `0`. -/
theorem index_spec_counterexample :
    is_power_of_two 65536 ∧
    Tree_helper.new 65536 5 1 =
      some { _degree := 65536, _height := 5, _leafs := 1,
             _degree_log2 := 16, _degree_mask := 65535 } ∧
    (Tree_helper.new 65536 5 1).bind (fun t => t.index 1 5) = none ∧
    1 / 65536 ^ (5 - 1) % 65536 = 0 := by
  refine ⟨⟨16, by norm_num⟩, by decide, by decide, by norm_num⟩

/-- C1 (amended): `index` is a bijective digit decomposition wherever it is
defined.  For a power-of-two degree `d`, a height `h ≤ 6` (so every height of
`1..6`) whose largest
shift count `log2(d) * (h-1)` is below 64, and every `vba < d^h`, the helper is
built, every index of the levels `1..h` is defined and the sum of
`index(vba, l) * d^(l-1)` over these levels equals `vba`; hence an address
below `d^h` with the same index at every level is `vba` itself. -/
theorem index_recombine (d h leafs vba : Nat) (hd : is_power_of_two d) (hd32 : d < U32)
    (hh6 : h ≤ 6) (hcount : _log2 d * (h - 1) < 64) (hv : vba < d ^ h) :
    ∃ t, Tree_helper.new d h leafs = some t ∧
      t.recombine vba h = some vba ∧
      ∀ vba', vba' < d ^ h →
        (∀ l, 1 ≤ l → l ≤ h → t.index vba' l = t.index vba l) → vba' = vba := by
  obtain ⟨k, rfl⟩ := hd
  have hk : k < 32 := pow_two_lt_U32 k hd32
  rw [log2_two_pow k hk] at hcount
  have hh32 : h < U32 := lt_of_le_of_lt hh6 (by unfold U32; norm_num)
  have hrec : ∀ a : Nat, a < (2 ^ k) ^ h →
      Tree_helper.recombine (Tree_helper.mk (2 ^ k) h leafs k (2 ^ k - 1)) a h = some a := by
    intro a ha
    rw [recombine_eq _ a h hk rfl rfl hh32 hcount h (le_refl _)]
    exact congrArg some (Nat.mod_eq_of_lt ha)
  refine ⟨_, new_two_pow k h leafs hk, hrec vba hv, ?_⟩
  intro vba' hv' hall
  have h1 := recombine_congr _ vba' vba h hall
  rw [hrec vba hv, hrec vba' hv'] at h1
  exact Option.some.inj h1

/-- Witness for C1: degree 4, height 3, address 27. -/
theorem index_recombine_witness :
    ∃ t, Tree_helper.new 4 3 64 = some t ∧
      t.recombine 27 3 = some 27 ∧
      ∀ vba', vba' < 4 ^ 3 →
        (∀ l, 1 ≤ l → l ≤ 3 → t.index vba' l = t.index 27 l) → vba' = 27 :=
  index_recombine 4 3 64 27 ⟨2, by norm_num⟩ (by unfold U32; norm_num) (by decide)
    (by decide) (by norm_num)

/-- C1 as stated fails: 8192 is a power of two, 6 is an admitted height and
`1 < 8192^6`, but at level 6 the shift count is `13 * 5 = 65`, so the index of
that level, and with it the recombined sum, has no defined value. -/
theorem index_recombine_counterexample :
    is_power_of_two 8192 ∧ 1 < 8192 ^ 6 ∧
    (Tree_helper.new 8192 6 1).isSome = true ∧
    (Tree_helper.new 8192 6 1).bind (fun t => t.index 1 6) = none ∧
    (Tree_helper.new 8192 6 1).bind (fun t => t.recombine 1 6) = none := by
  refine ⟨⟨13, by norm_num⟩, by norm_num, by decide, by decide, by decide⟩

/-- C6 (amended): the constructor performs no validation of the shape.  For
every degree `1 ≤ d < 2^32`, power of two or not, and every height and leaf
count it yields a helper that stores the three values unchanged together with
`_degree_log2 = floor(log2 d)` and `_degree_mask = 2^floor(log2 d) - 1`, and
whose `index` is usable: at level 1 it is defined for every `vba`.  Only the
degree 0 yields no helper, the mask's shift count being the sentinel of
`_log2`. -/
theorem new_accepts_every_shape (d h n : Nat) (hd32 : d < U32) :
    (0 < d → ∃ t, Tree_helper.new d h n = some t ∧
      t._degree = d ∧ t._height = h ∧ t._leafs = n ∧
      2 ^ t._degree_log2 ≤ d ∧ d < 2 ^ (t._degree_log2 + 1) ∧
      t._degree_mask = 2 ^ t._degree_log2 - 1 ∧
      ∀ vba, t.index vba 1 = some (vba % 2 ^ t._degree_log2)) ∧
    (d = 0 → Tree_helper.new d h n = none) := by
  constructor
  · intro hd
    obtain ⟨h1, h2, h3⟩ := log2_bounds d hd32 hd
    refine ⟨_, new_eq d h n hd hd32, rfl, rfl, rfl, h2, h3, rfl, ?_⟩
    intro vba
    rw [index_eq _ vba 1 (Nat.lt_succ_of_le h1) rfl (le_refl _) (by unfold U32; norm_num)
      (by norm_num)]
    simp only [Nat.sub_self, Nat.mul_zero, Nat.pow_zero, Nat.div_one]
  · intro hd
    subst hd
    rfl

/-- Witness for C6: the degree 12, which is no power of two, and the height 9. -/
theorem new_accepts_every_shape_witness :
    12 < U32 ∧ ∃ t, Tree_helper.new 12 9 5 = some t ∧
      t._degree = 12 ∧ t._height = 9 ∧ t._leafs = 5 ∧
      2 ^ t._degree_log2 ≤ 12 ∧ 12 < 2 ^ (t._degree_log2 + 1) ∧
      t._degree_mask = 2 ^ t._degree_log2 - 1 ∧
      ∀ vba, t.index vba 1 = some (vba % 2 ^ t._degree_log2) :=
  have h : 12 < U32 := by unfold U32; norm_num
  ⟨h, (new_accepts_every_shape 12 9 5 h).1 (by decide)⟩

/-- C6 as stated fails: the degree 3 is not a power of two and the height 7
lies outside `1..6`, yet construction yields a helper (with `_degree_log2 = 1`
and `_degree_mask = 1`) whose `index` returns a value. -/
theorem new_validates_counterexample :
    ¬ is_power_of_two 3 ∧ ¬ (7 ≤ TREE_MAX_HEIGHT) ∧
    Tree_helper.new 3 7 9 =
      some { _degree := 3, _height := 7, _leafs := 9,
             _degree_log2 := 1, _degree_mask := 1 } ∧
    (Tree_helper.new 3 7 9).bind (fun t => t.index 5 2) = some 0 := by
  refine ⟨?_, by decide, by decide, by decide⟩
  rintro ⟨k, hk⟩
  rcases k with _ | _ | k
  · simp at hk
  · simp at hk
  · have : 4 ≤ 2 ^ (k + 1 + 1) := by
      rw [Nat.pow_succ, Nat.pow_succ]
      have h1 : 1 ≤ 2 ^ k := Nat.one_le_two_pow
      omega
    omega

/-! ### Snapshot directory -/

/-- The loop over the last `n` slots returns either the sentinel or one of
these slots, and in the second case the lowest matching one. -/
theorem snapshot_slot_loop_spec (sb : Super_block) :
    ∀ n : Nat, n ≤ NUM_SNAPSHOTS →
      ((∃ j : Fin NUM_SNAPSHOTS, NUM_SNAPSHOTS - n ≤ j.val ∧
            (sb.snapshots j).valid = true ∧ (sb.snapshots j).id = sb.snapshot_id) →
        ∃ hlt : sb.snapshot_slot_loop n < NUM_SNAPSHOTS,
          NUM_SNAPSHOTS - n ≤ sb.snapshot_slot_loop n ∧
          (sb.snapshots ⟨sb.snapshot_slot_loop n, hlt⟩).valid = true ∧
          (sb.snapshots ⟨sb.snapshot_slot_loop n, hlt⟩).id = sb.snapshot_id ∧
          ∀ j : Fin NUM_SNAPSHOTS, NUM_SNAPSHOTS - n ≤ j.val →
            (sb.snapshots j).valid = true → (sb.snapshots j).id = sb.snapshot_id →
            sb.snapshot_slot_loop n ≤ j.val) ∧
      ((¬ ∃ j : Fin NUM_SNAPSHOTS, NUM_SNAPSHOTS - n ≤ j.val ∧
            (sb.snapshots j).valid = true ∧ (sb.snapshots j).id = sb.snapshot_id) →
        sb.snapshot_slot_loop n = Super_block.INVALID_SNAPSHOT_SLOT) := by
  intro n
  induction n with
  | zero =>
    intro _
    constructor
    · rintro ⟨j, hj, _⟩
      have := j.isLt
      omega
    · intro _
      rfl
  | succ n ih =>
    intro hn
    obtain ⟨ih1, ih2⟩ := ih (by omega)
    have hi : NUM_SNAPSHOTS - (n + 1) < NUM_SNAPSHOTS := by omega
    have hnext : NUM_SNAPSHOTS - n = NUM_SNAPSHOTS - (n + 1) + 1 := by omega
    have hunfold := Super_block.snapshot_slot_loop.eq_2 sb n
    rw [dif_pos hi] at hunfold
    by_cases hvalid : (sb.snapshots ⟨NUM_SNAPSHOTS - (n + 1), hi⟩).valid = true
    · by_cases hid : (sb.snapshots ⟨NUM_SNAPSHOTS - (n + 1), hi⟩).id = sb.snapshot_id
      · simp only [hvalid, hid, Bool.not_true, Bool.false_eq_true, if_false, beq_self_eq_true,
          if_true] at hunfold
        rw [hunfold]
        constructor
        · intro _
          exact ⟨hi, le_refl _, hvalid, hid, fun j hj _ _ => hj⟩
        · intro hno
          exact absurd ⟨⟨_, hi⟩, le_refl _, hvalid, hid⟩ hno
      · have hbeq : ((sb.snapshots ⟨NUM_SNAPSHOTS - (n + 1), hi⟩).id == sb.snapshot_id) = false :=
          beq_false_of_ne hid
        simp only [hvalid, hbeq, Bool.not_true, Bool.false_eq_true, if_false] at hunfold
        rw [hunfold]
        constructor
        · rintro ⟨j, hj, hjv, hjid⟩
          have hne : j.val ≠ NUM_SNAPSHOTS - (n + 1) := by
            intro heq
            apply hid
            have : j = ⟨NUM_SNAPSHOTS - (n + 1), hi⟩ := Fin.ext heq
            rw [← this]
            exact hjid
          obtain ⟨hlt, h1, h2, h3, h4⟩ := ih1 ⟨j, by omega, hjv, hjid⟩
          refine ⟨hlt, by omega, h2, h3, ?_⟩
          intro j' hj' hjv' hjid'
          have hne' : j'.val ≠ NUM_SNAPSHOTS - (n + 1) := by
            intro heq
            apply hid
            have : j' = ⟨NUM_SNAPSHOTS - (n + 1), hi⟩ := Fin.ext heq
            rw [← this]
            exact hjid'
          exact h4 j' (by omega) hjv' hjid'
        · intro hno
          apply ih2
          rintro ⟨j, hj, hjv, hjid⟩
          exact hno ⟨j, by omega, hjv, hjid⟩
    · have hv : (sb.snapshots ⟨NUM_SNAPSHOTS - (n + 1), hi⟩).valid = false := by
        simpa using hvalid
      simp only [hv, Bool.not_false, if_true] at hunfold
      rw [hunfold]
      constructor
      · rintro ⟨j, hj, hjv, hjid⟩
        have hne : j.val ≠ NUM_SNAPSHOTS - (n + 1) := by
          intro heq
          have : j = ⟨NUM_SNAPSHOTS - (n + 1), hi⟩ := Fin.ext heq
          rw [this] at hjv
          exact hvalid hjv
        obtain ⟨hlt, h1, h2, h3, h4⟩ := ih1 ⟨j, by omega, hjv, hjid⟩
        refine ⟨hlt, by omega, h2, h3, ?_⟩
        intro j' hj' hjv' hjid'
        have hne' : j'.val ≠ NUM_SNAPSHOTS - (n + 1) := by
          intro heq
          have : j' = ⟨NUM_SNAPSHOTS - (n + 1), hi⟩ := Fin.ext heq
          rw [this] at hjv'
          exact hvalid hjv'
        exact h4 j' (by omega) hjv' hjid'
      · intro hno
        apply ih2
        rintro ⟨j, hj, hjv, hjid⟩
        exact hno ⟨j, by omega, hjv, hjid⟩

theorem snapshot_valid_iff (s : Snapshot) : s.valid = true ↔ s.id ≠ Snapshot.INVALID_ID := by
  unfold Snapshot.valid
  exact bne_iff_ne

/-- C3: `snapshot_slot` returns an index below 48 exactly when some slot holds
a valid snapshot (`id ≠ INVALID_ID`) whose id equals `snapshot_id`; the index
returned is then the lowest such slot and the snapshot stored there is valid
and carries `snapshot_id`.  Otherwise the result is the sentinel
`INVALID_SNAPSHOT_SLOT = 48`, which is no slot index and in particular not 0. -/
theorem snapshot_slot_spec (sb : Super_block) :
    ((∃ j : Fin NUM_SNAPSHOTS, (sb.snapshots j).id ≠ Snapshot.INVALID_ID ∧
          (sb.snapshots j).id = sb.snapshot_id) ↔ sb.snapshot_slot < 48) ∧
    (∀ hlt : sb.snapshot_slot < NUM_SNAPSHOTS,
      (sb.snapshots ⟨sb.snapshot_slot, hlt⟩).id ≠ Snapshot.INVALID_ID ∧
      (sb.snapshots ⟨sb.snapshot_slot, hlt⟩).id = sb.snapshot_id ∧
      ∀ j : Fin NUM_SNAPSHOTS, (sb.snapshots j).id ≠ Snapshot.INVALID_ID →
        (sb.snapshots j).id = sb.snapshot_id → sb.snapshot_slot ≤ j.val) ∧
    (¬ sb.snapshot_slot < 48 → sb.snapshot_slot = Super_block.INVALID_SNAPSHOT_SLOT) ∧
    Super_block.INVALID_SNAPSHOT_SLOT = 48 ∧
    ¬ Super_block.INVALID_SNAPSHOT_SLOT < NUM_SNAPSHOTS ∧
    Super_block.INVALID_SNAPSHOT_SLOT ≠ 0 := by
  obtain ⟨h1, h2⟩ := snapshot_slot_loop_spec sb NUM_SNAPSHOTS (le_refl _)
  have hex : (∃ j : Fin NUM_SNAPSHOTS, (sb.snapshots j).id ≠ Snapshot.INVALID_ID ∧
        (sb.snapshots j).id = sb.snapshot_id) →
      ∃ j : Fin NUM_SNAPSHOTS, NUM_SNAPSHOTS - NUM_SNAPSHOTS ≤ j.val ∧
        (sb.snapshots j).valid = true ∧ (sb.snapshots j).id = sb.snapshot_id := by
    rintro ⟨j, hv, hid⟩
    exact ⟨j, by omega, (snapshot_valid_iff _).2 hv, hid⟩
  have hno : (¬ ∃ j : Fin NUM_SNAPSHOTS, (sb.snapshots j).id ≠ Snapshot.INVALID_ID ∧
        (sb.snapshots j).id = sb.snapshot_id) →
      sb.snapshot_slot = Super_block.INVALID_SNAPSHOT_SLOT := by
    intro hn
    apply h2
    rintro ⟨j, _, hv, hid⟩
    exact hn ⟨j, (snapshot_valid_iff _).1 hv, hid⟩
  have hfound : sb.snapshot_slot < NUM_SNAPSHOTS →
      ∃ j : Fin NUM_SNAPSHOTS, (sb.snapshots j).id ≠ Snapshot.INVALID_ID ∧
        (sb.snapshots j).id = sb.snapshot_id := by
    intro hlt
    by_contra hn
    have := hno hn
    unfold Super_block.INVALID_SNAPSHOT_SLOT at this
    omega
  refine ⟨⟨?_, hfound⟩, ?_, ?_, rfl, by decide, by decide⟩
  · intro hj
    obtain ⟨hlt, _⟩ := h1 (hex hj)
    exact hlt
  · intro hlt
    obtain ⟨hlt2, _, hv, hid, hmin⟩ := h1 (hex (hfound hlt))
    refine ⟨(snapshot_valid_iff _).1 hv, hid, ?_⟩
    intro j hjv hjid
    exact hmin j (by omega) ((snapshot_valid_iff _).2 hjv) hjid
  · intro hge
    apply hno
    intro hj
    obtain ⟨hlt, _⟩ := h1 (hex hj)
    exact hge hlt

/-! ### Requests and primitives -/

/-- C4: `Primitive::equal` holds exactly when tag, block number and operation
agree, so its result is independent of `success` and `index` on both sides;
`Request::equal` holds exactly when tag, block number and operation agree,
independently of `success`, `offset` and `count`.  Two `IO_TAG` reads of block
10 with different `success` compare equal, and neither equals the read of
block 11. -/
theorem equal_spec :
    (∀ a b : Primitive, a.equal b = true ↔
      a.tag = b.tag ∧ a.block_number = b.block_number ∧ a.operation = b.operation) ∧
    (∀ (a b : Primitive) (s1 s2 i1 i2 : Nat),
      Primitive.equal { a with success := s1, index := i1 }
        { b with success := s2, index := i2 } = a.equal b) ∧
    (∀ a b : Request, a.equal b = true ↔
      a.tag = b.tag ∧ a.block_number = b.block_number ∧ a.operation = b.operation) ∧
    (∀ (a b : Request) (s1 s2 o1 o2 c1 c2 : Nat),
      Request.equal { a with success := s1, offset := o1, count := c1 }
        { b with success := s2, offset := o2, count := c2 } = a.equal b) ∧
    Primitive.equal ⟨IO_TAG, Operation.READ, Success.TRUE, 10, 0⟩
      ⟨IO_TAG, Operation.READ, Success.FALSE, 10, 0⟩ = true ∧
    Primitive.equal ⟨IO_TAG, Operation.READ, Success.TRUE, 10, 0⟩
      ⟨IO_TAG, Operation.READ, Success.TRUE, 11, 0⟩ = false ∧
    Primitive.equal ⟨IO_TAG, Operation.READ, Success.FALSE, 10, 0⟩
      ⟨IO_TAG, Operation.READ, Success.TRUE, 11, 0⟩ = false := by
  refine ⟨?_, ?_, ?_, ?_, by decide, by decide, by decide⟩
  · intro a b
    simp only [Primitive.equal, Bool.and_eq_true, beq_iff_eq, and_assoc]
  · intro a b s1 s2 i1 i2
    rfl
  · intro a b
    simp only [Request.equal, Bool.and_eq_true, beq_iff_eq, and_assoc]
  · intro a b s1 s2 o1 o2 c1 c2
    rfl

/-- C5: for a `Request` and for a `Primitive` whose operation field holds any
value (so any 32-bit value), `valid()` is true exactly for READ (1), WRITE (2) and SYNC (3);
it is false for INVALID (0) and for every value above 3; and `valid()` holds
exactly when precisely one of `read()`, `write()`, `sync()` holds. -/
theorem valid_spec :
    (∀ r : Request,
      (r.valid = true ↔ r.operation = 1 ∨ r.operation = 2 ∨ r.operation = 3) ∧
      (r.operation = 0 → r.valid = false) ∧ (3 < r.operation → r.valid = false) ∧
      (r.valid = true ↔
        (r.read = true ∧ r.write = false ∧ r.sync = false) ∨
        (r.read = false ∧ r.write = true ∧ r.sync = false) ∨
        (r.read = false ∧ r.write = false ∧ r.sync = true))) ∧
    (∀ p : Primitive,
      (p.valid = true ↔ p.operation = 1 ∨ p.operation = 2 ∨ p.operation = 3) ∧
      (p.operation = 0 → p.valid = false) ∧ (3 < p.operation → p.valid = false) ∧
      (p.valid = true ↔
        (p.read = true ∧ p.write = false ∧ p.sync = false) ∨
        (p.read = false ∧ p.write = true ∧ p.sync = false) ∨
        (p.read = false ∧ p.write = false ∧ p.sync = true))) := by
  constructor
  · intro r
    have hcases : r.operation = 1 ∨ r.operation = 2 ∨ r.operation = 3 ∨
        (r.operation ≠ 1 ∧ r.operation ≠ 2 ∧ r.operation ≠ 3) := by omega
    rcases hcases with h | h | h | ⟨h1, h2, h3⟩
    · simp [Request.valid, Request.read, Request.write, Request.sync, Operation.READ,
        Operation.WRITE, Operation.SYNC, h]
    · simp [Request.valid, Request.read, Request.write, Request.sync, Operation.READ,
        Operation.WRITE, Operation.SYNC, h]
    · simp [Request.valid, Request.read, Request.write, Request.sync, Operation.READ,
        Operation.WRITE, Operation.SYNC, h]
    · simp [Request.valid, Request.read, Request.write, Request.sync, Operation.READ,
        Operation.WRITE, Operation.SYNC, h1, h2, h3]
  · intro p
    have hcases : p.operation = 1 ∨ p.operation = 2 ∨ p.operation = 3 ∨
        (p.operation ≠ 1 ∧ p.operation ≠ 2 ∧ p.operation ≠ 3) := by omega
    rcases hcases with h | h | h | ⟨h1, h2, h3⟩
    · simp [Primitive.valid, Primitive.read, Primitive.write, Primitive.sync, Operation.READ,
        Operation.WRITE, Operation.SYNC, h]
    · simp [Primitive.valid, Primitive.read, Primitive.write, Primitive.sync, Operation.READ,
        Operation.WRITE, Operation.SYNC, h]
    · simp [Primitive.valid, Primitive.read, Primitive.write, Primitive.sync, Operation.READ,
        Operation.WRITE, Operation.SYNC, h]
    · simp [Primitive.valid, Primitive.read, Primitive.write, Primitive.sync, Operation.READ,
        Operation.WRITE, Operation.SYNC, h1, h2, h3]

/-! ### Snapshots -/

/-- C7: `discard` invalidates the snapshot and changes nothing else: afterwards
`valid()` is false and `id` is `INVALID_ID = 2^32 - 1`, while `hash`, `pba`,
`gen`, `leaves`, `height` and `flags`, hence `keep()`, are unchanged; `discard`
is idempotent; and `valid()` is true exactly when `id ≠ INVALID_ID`. -/
theorem discard_spec (s : Snapshot) :
    s.discard.valid = false ∧ s.discard.id = Snapshot.INVALID_ID ∧
    Snapshot.INVALID_ID = 2 ^ 32 - 1 ∧
    s.discard.hash = s.hash ∧ s.discard.pba = s.pba ∧ s.discard.gen = s.gen ∧
    s.discard.leaves = s.leaves ∧ s.discard.height = s.height ∧
    s.discard.flags = s.flags ∧ s.discard.keep = s.keep ∧
    s.discard.discard = s.discard ∧
    (s.valid = true ↔ s.id ≠ Snapshot.INVALID_ID) := by
  refine ⟨?_, rfl, rfl, rfl, rfl, rfl, rfl, rfl, rfl, rfl, rfl, snapshot_valid_iff s⟩
  simp [Snapshot.valid, Snapshot.discard]

/-! ### Node records -/

/-- C9: both on-disk node records fit the 64-byte node limit and the fan-out is
derived from their size: the members of `Type_i_node` take 48 bytes, those of
`Type_ii_node` 37 bytes, both at most 64; `sizeof` of each record is 64;
`TYPE_1_PER_BLOCK = TYPE_2_PER_BLOCK = BLOCK_SIZE / 64 = 64`; and 64 entries
fill one block of 4096 bytes exactly. -/
theorem node_sizes :
    Type_i_node.fields_size = 48 ∧ Type_ii_node.fields_size = 37 ∧
    Type_i_node.fields_size ≤ Type_i_node.MAX_NODE_SIZE ∧
    Type_ii_node.fields_size ≤ Type_ii_node.MAX_NODE_SIZE ∧
    sizeof_Type_i_node = 64 ∧ sizeof_Type_ii_node = 64 ∧
    sizeof_Type_i_node ≤ Type_i_node.MAX_NODE_SIZE ∧
    sizeof_Type_ii_node ≤ Type_ii_node.MAX_NODE_SIZE ∧
    TYPE_1_PER_BLOCK = BLOCK_SIZE / 64 ∧ TYPE_2_PER_BLOCK = BLOCK_SIZE / 64 ∧
    TYPE_1_PER_BLOCK = 64 ∧ TYPE_2_PER_BLOCK = 64 ∧
    TYPE_1_PER_BLOCK * sizeof_Type_i_node = BLOCK_SIZE ∧
    TYPE_2_PER_BLOCK * sizeof_Type_ii_node = BLOCK_SIZE ∧ BLOCK_SIZE = 4096 := by
  decide

/-! ### Tags -/

/-- C10 (on the code): every enumerator of `Tag` is below `2^24`, but the
values do not follow the layout documented above the enumeration.  Bits
[23:16] are zero for every enumerator; the codes of the meta-modules `VBD_TAG`
and `FREE_TREE_TAG` (1 and 2) lie in bits [15:8]; the module codes `0x10` to
`0x90` and the sub-type codes `0x1`, `0x2` both lie in bits [7:0]. -/
theorem tag_layout_on_code :
    (∀ t ∈ all_tags, t < 2 ^ 24 ∧ tag_meta_type t = 0) ∧
    tag_type VBD_TAG = 1 ∧ tag_type FREE_TREE_TAG = 2 ∧
    tag_type VBD_CACHE_TAG = 1 ∧ tag_type ( FREE_TREE_TAG_IO) = 2 ∧
    tag_type FREE_TREE_TAG_CACHE = 2 ∧ tag_type FREE_TREE_TAG_WB = 2 ∧
    tag_type ( IO_TAG) = 0 ∧ tag_type CACHE_TAG = 0 ∧ tag_type CRYPTO_TAG = 0 ∧
    tag_type POOL_TAG = 0 ∧ tag_type SPLITTER_TAG = 0 ∧ tag_type TRANSLATION_TAG = 0 ∧
    tag_type WRITE_BACK_TAG = 0 ∧ tag_type SYNC_SB_TAG = 0 ∧ tag_type RECLAIM_TAG = 0 ∧
    tag_sub_type ( IO_TAG) = 0x10 ∧ tag_sub_type CACHE_TAG = 0x20 ∧
    tag_sub_type CACHE_FLUSH_TAG = 0x21 ∧ tag_sub_type CRYPTO_TAG_DECRYPT = 0x31 ∧
    tag_sub_type CRYPTO_TAG_ENCRYPT = 0x32 ∧ tag_sub_type RECLAIM_TAG = 0x90 := by
  decide

/-! ### Node images -/

theorem le_bytes_length (w : Nat) : ∀ n : Nat, (le_bytes n w).length = w := by
  induction w with
  | zero => intro n; rfl
  | succ w ih => intro n; simp only [le_bytes, List.length_cons, ih]

theorem le_value_le_bytes (w : Nat) : ∀ n : Nat, le_value (le_bytes n w) = n % 256 ^ w := by
  induction w with
  | zero => intro n; simp only [le_bytes, le_value, Nat.pow_zero, Nat.mod_one]
  | succ w ih =>
    intro n
    simp only [le_bytes, le_value, ih]
    have key : n % 256 ^ (w + 1) = n % 256 + 256 * (n / 256 % 256 ^ w) := by
      rw [Nat.pow_succ, Nat.mul_comm, Nat.mod_mul]
    exact key.symm

theorem le_bytes_lt (w : Nat) : ∀ n : Nat, ∀ b ∈ le_bytes n w, b < 256 := by
  induction w with
  | zero => intro n b hb; simp only [le_bytes, List.not_mem_nil] at hb
  | succ w ih =>
    intro n b hb
    simp only [le_bytes, List.mem_cons] at hb
    rcases hb with rfl | hb
    · exact Nat.mod_lt _ (by decide)
    · exact ih _ b hb

theorem take_append_exact {α : Type} (a b : List α) (n : Nat) (h : a.length = n) :
    (a ++ b).take n = a := by
  subst h
  exact List.take_left a b

theorem drop_append_exact {α : Type} (a b : List α) (n : Nat) (h : a.length = n) :
    (a ++ b).drop n = b := by
  subst h
  exact List.drop_left a b

theorem le_value_le_bytes_8 (n : Nat) (h : n < U64) : le_value (le_bytes n 8) = n := by
  rw [le_value_le_bytes]
  apply Nat.mod_eq_of_lt
  unfold U64 at h
  norm_num at h ⊢
  exact h

theorem le_value_le_bytes_4 (n : Nat) (h : n < U32) : le_value (le_bytes n 4) = n := by
  rw [le_value_le_bytes]
  apply Nat.mod_eq_of_lt
  unfold U32 at h
  norm_num at h ⊢
  exact h

theorem type_i_decode_encode (n : Type_i_node) (h1 : n.pba < U64) (h2 : n.gen < U64)
    (h3 : n.hash.values.length = Hash.MAX_LENGTH) : Type_i_node.decode n.encode = n := by
  have e1 : n.encode = le_bytes n.pba 8 ++
      (le_bytes n.gen 8 ++ (n.hash.values ++ List.replicate 16 0)) := by
    simp only [Type_i_node.encode, List.append_assoc]
  have e2 : n.encode = (le_bytes n.pba 8 ++ le_bytes n.gen 8) ++
      (n.hash.values ++ List.replicate 16 0) := by
    simp only [Type_i_node.encode, List.append_assoc]
  have l16 : (le_bytes n.pba 8 ++ le_bytes n.gen 8).length = 16 := by
    simp only [List.length_append, le_bytes_length]
  have p1 : le_value (n.encode.take 8) = n.pba := by
    rw [e1, take_append_exact _ _ 8 (le_bytes_length 8 _), le_value_le_bytes_8 _ h1]
  have p2 : le_value ((n.encode.drop 8).take 8) = n.gen := by
    rw [e1, drop_append_exact _ _ 8 (le_bytes_length 8 _),
      take_append_exact _ _ 8 (le_bytes_length 8 _), le_value_le_bytes_8 _ h2]
  have p3 : (n.encode.drop 16).take Hash.MAX_LENGTH = n.hash.values := by
    rw [e2, drop_append_exact _ _ 16 l16, take_append_exact _ _ _ h3]
  unfold Type_i_node.decode
  rw [p1, p2, p3]

theorem type_ii_decode_encode (n : Type_ii_node) (h1 : n.pba < U64) (h2 : n.last_vba < U64)
    (h3 : n.alloc_gen < U64) (h4 : n.free_gen < U64) (h5 : n.last_key_id < U32) :
    Type_ii_node.decode n.encode = n := by
  have e1 : n.encode = le_bytes n.pba 8 ++ (le_bytes n.last_vba 8 ++ (le_bytes n.alloc_gen 8 ++
      (le_bytes n.free_gen 8 ++ (le_bytes n.last_key_id 4 ++
        ([if n.reserved then 1 else 0] ++ List.replicate 27 0))))) := by
    simp only [Type_ii_node.encode, List.append_assoc]
  have d8 := drop_append_exact (le_bytes n.pba 8) (le_bytes n.last_vba 8 ++
    (le_bytes n.alloc_gen 8 ++ (le_bytes n.free_gen 8 ++ (le_bytes n.last_key_id 4 ++
      ([if n.reserved then 1 else 0] ++ List.replicate 27 0))))) 8 (le_bytes_length 8 _)
  have d16 : n.encode.drop 16 = le_bytes n.alloc_gen 8 ++ (le_bytes n.free_gen 8 ++
      (le_bytes n.last_key_id 4 ++ ([if n.reserved then 1 else 0] ++ List.replicate 27 0))) := by
    have h : n.encode.drop 16 = (n.encode.drop 8).drop 8 := by rw [List.drop_drop]
    rw [h, e1, d8, drop_append_exact _ _ 8 (le_bytes_length 8 _)]
  have d24 : n.encode.drop 24 = le_bytes n.free_gen 8 ++
      (le_bytes n.last_key_id 4 ++ ([if n.reserved then 1 else 0] ++ List.replicate 27 0)) := by
    have h : n.encode.drop 24 = (n.encode.drop 16).drop 8 := by rw [List.drop_drop]
    rw [h, d16, drop_append_exact _ _ 8 (le_bytes_length 8 _)]
  have d32 : n.encode.drop 32 =
      le_bytes n.last_key_id 4 ++ ([if n.reserved then 1 else 0] ++ List.replicate 27 0) := by
    have h : n.encode.drop 32 = (n.encode.drop 24).drop 8 := by rw [List.drop_drop]
    rw [h, d24, drop_append_exact _ _ 8 (le_bytes_length 8 _)]
  have d36 : n.encode.drop 36 = [if n.reserved then 1 else 0] ++ List.replicate 27 0 := by
    have h : n.encode.drop 36 = (n.encode.drop 32).drop 4 := by rw [List.drop_drop]
    rw [h, d32, drop_append_exact _ _ 4 (le_bytes_length 4 _)]
  have p1 : le_value (n.encode.take 8) = n.pba := by
    rw [e1, take_append_exact _ _ 8 (le_bytes_length 8 _), le_value_le_bytes_8 _ h1]
  have p2 : le_value ((n.encode.drop 8).take 8) = n.last_vba := by
    rw [e1, d8, take_append_exact _ _ 8 (le_bytes_length 8 _), le_value_le_bytes_8 _ h2]
  have p3 : le_value ((n.encode.drop 16).take 8) = n.alloc_gen := by
    rw [d16, take_append_exact _ _ 8 (le_bytes_length 8 _), le_value_le_bytes_8 _ h3]
  have p4 : le_value ((n.encode.drop 24).take 8) = n.free_gen := by
    rw [d24, take_append_exact _ _ 8 (le_bytes_length 8 _), le_value_le_bytes_8 _ h4]
  have p5 : le_value ((n.encode.drop 32).take 4) = n.last_key_id := by
    rw [d32, take_append_exact _ _ 4 (le_bytes_length 4 _), le_value_le_bytes_4 _ h5]
  have p6 : ((n.encode.drop 36).head? != some 0) = n.reserved := by
    rw [d36]
    cases n.reserved <;> decide
  unfold Type_ii_node.decode
  rw [p1, p2, p3, p4, p5, p6]

/-- C11: node records round-trip through their 64-byte data image.  For every
type 1 node whose `pba` and `gen` are 64-bit values and whose hash has 32
bytes, the image has 64 bytes, reading the members back from it gives the
original members, and the `Type_1_node_info` working form of the decoded node
carries the same `pba`, `gen` and `hash`.  For every type 2 node whose `pba`,
`last_vba`, `alloc_gen`, `free_gen` are 64-bit values and whose `last_key_id`
is a 32-bit value, the image has 64 bytes and reading the members back gives
the original `pba`, `last_vba`, `alloc_gen`, `free_gen`, `last_key_id` and
`reserved`. -/
theorem node_roundtrip :
    (∀ n : Type_i_node, n.pba < U64 → n.gen < U64 →
      n.hash.values.length = Hash.MAX_LENGTH →
      n.encode.length = Type_i_node.MAX_NODE_SIZE ∧
      Type_i_node.decode n.encode = n ∧
      (Type_i_node.decode n.encode).info = { pba := n.pba, gen := n.gen, hash := n.hash }) ∧
    (∀ n : Type_ii_node, n.pba < U64 → n.last_vba < U64 → n.alloc_gen < U64 →
      n.free_gen < U64 → n.last_key_id < U32 →
      n.encode.length = Type_ii_node.MAX_NODE_SIZE ∧
      Type_ii_node.decode n.encode = n) := by
  constructor
  · intro n h1 h2 h3
    refine ⟨?_, type_i_decode_encode n h1 h2 h3, ?_⟩
    · simp only [Type_i_node.encode, List.length_append, le_bytes_length, h3,
        List.length_replicate]
      rfl
    · rw [type_i_decode_encode n h1 h2 h3]
      rfl
  · intro n h1 h2 h3 h4 h5
    refine ⟨?_, type_ii_decode_encode n h1 h2 h3 h4 h5⟩
    simp only [Type_ii_node.encode, List.length_append, le_bytes_length,
      List.length_replicate, List.length_singleton]
    rfl

/-- Witness for C11: a type 1 node with `pba = 4660`, `gen = 7` and the hash
bytes `1, 1, ...`, and a reserved type 2 node. -/
theorem node_roundtrip_witness :
    Type_i_node.decode (Type_i_node.encode ⟨4660, 7, ⟨List.replicate 32 1⟩⟩) =
      ⟨4660, 7, ⟨List.replicate 32 1⟩⟩ ∧
    Type_ii_node.decode (Type_ii_node.encode ⟨4660, 513, 7, INVALID_GEN, 1, true⟩) =
      ⟨4660, 513, 7, INVALID_GEN, 1, true⟩ :=
  ⟨(node_roundtrip.1 ⟨4660, 7, ⟨List.replicate 32 1⟩⟩ (by unfold U64; norm_num)
      (by unfold U64; norm_num) (by decide)).2.1,
   (node_roundtrip.2 ⟨4660, 513, 7, INVALID_GEN, 1, true⟩ (by unfold U64; norm_num)
      (by unfold U64; norm_num) (by unfold U64; norm_num)
      (by unfold U64 INVALID_GEN; norm_num) (by unfold U32; norm_num)).2⟩

/-! ### Super-block validity -/

/-- C12: `Super_block::valid` is true exactly when `last_secured_generation`
differs from `INVALID_GEN = 2^64 - 1`; two super-blocks with the same
`last_secured_generation` have the same validity whatever their keys,
snapshots, `snapshot_id`, `degree` and free-tree root are. -/
theorem super_block_valid_spec :
    (∀ sb : Super_block, sb.valid = true ↔ sb.last_secured_generation ≠ INVALID_GEN) ∧
    INVALID_GEN = 2 ^ 64 - 1 ∧
    (∀ sb other : Super_block,
      sb.last_secured_generation = other.last_secured_generation → sb.valid = other.valid) ∧
    (∀ (sb : Super_block) (key : Fin 2 → Key) (snapshots : Fin NUM_SNAPSHOTS → Snapshot)
      (snapshot_id degree free_gen free_number : Nat) (free_hash : Hash)
      (free_height free_degree free_leaves : Nat),
      Super_block.valid
        { key := key, snapshots := snapshots,
          last_secured_generation := sb.last_secured_generation,
          snapshot_id := snapshot_id, degree := degree, free_gen := free_gen,
          free_number := free_number, free_hash := free_hash, free_height := free_height,
          free_degree := free_degree, free_leaves := free_leaves } = sb.valid) := by
  refine ⟨?_, by decide, ?_, ?_⟩
  · intro sb
    unfold Super_block.valid
    exact bne_iff_ne
  · intro sb other h
    unfold Super_block.valid
    rw [h]
  · intros
    rfl

/-! ### Tree addressing: definedness and the mask -/

/-- C14 (amended): `index` is total on the shapes whose shift stays inside the
64-bit address.  For a power-of-two degree `d`, a height `1 ≤ h ≤ 6` with
`log2(d) * (h-1) < 64`, every level `1 ≤ l ≤ h` and every `vba`, the shift count
`_degree_log2 * (l-1)` computed by `index` is below 64 and `index(vba, l)` is
defined. -/
theorem index_total (d h leafs vba l : Nat) (hd : is_power_of_two d) (hd32 : d < U32)
    (hh1 : 1 ≤ h) (hh6 : h ≤ 6) (hl1 : 1 ≤ l) (hlh : l ≤ h)
    (hcount : _log2 d * (h - 1) < 64) :
    ∃ t, Tree_helper.new d h leafs = some t ∧
      (t._degree_log2 * ((l + U32 - 1) % U32)) % U32 = t._degree_log2 * (l - 1) ∧
      t._degree_log2 * (l - 1) < 64 ∧
      (t.index vba l).isSome = true := by
  obtain ⟨k, rfl⟩ := hd
  have hk : k < 32 := pow_two_lt_U32 k hd32
  rw [log2_two_pow k hk] at hcount
  have hl32 : l < U32 := lt_of_le_of_lt (le_trans hlh hh6) (by unfold U32; norm_num)
  have hc : k * (l - 1) < 64 :=
    lt_of_le_of_lt (Nat.mul_le_mul_left _ (Nat.sub_le_sub_right hlh 1)) hcount
  have hlevel : (l + U32 - 1) % U32 = l - 1 := by
    have h1 : l + U32 - 1 = (l - 1) + U32 := by omega
    rw [h1, Nat.add_mod_right]
    exact Nat.mod_eq_of_lt (by omega)
  refine ⟨_, new_two_pow k h leafs hk, ?_, hc, ?_⟩
  · show (k * ((l + U32 - 1) % U32)) % U32 = k * (l - 1)
    rw [hlevel]
    exact Nat.mod_eq_of_lt (lt_trans hc (by unfold U32; norm_num))
  · rw [index_eq _ vba l hk rfl hl1 hl32 hc]
    rfl

/-- Witness for C14: degree 64, height 6, level 6. -/
theorem index_total_witness :
    ∃ t, Tree_helper.new 64 6 1000 = some t ∧
      (t._degree_log2 * ((6 + U32 - 1) % U32)) % U32 = t._degree_log2 * (6 - 1) ∧
      t._degree_log2 * (6 - 1) < 64 ∧
      (t.index 999 6).isSome = true :=
  index_total 64 6 1000 999 6 ⟨6, by norm_num⟩ (by unfold U32; norm_num) (by decide)
    (by decide) (by decide) (by decide) (by decide)

/-- C14 as stated fails: 2^22 is a power of two, the height 4 lies in `1..6`
and level 4 in `1..4`, but the shift count is `22 * 3 = 66`, not below 64, and
`index` has no defined value for the address 1 below the leaf count 2. -/
theorem index_total_counterexample :
    is_power_of_two 4194304 ∧
    Tree_helper.new 4194304 4 2 =
      some { _degree := 4194304, _height := 4, _leafs := 2,
             _degree_log2 := 22, _degree_mask := 4194303 } ∧
    ¬ (22 * (4 - 1) < 64) ∧
    (Tree_helper.new 4194304 4 2).bind (fun t => t.index 1 4) = none := by
  refine ⟨⟨22, by norm_num⟩, by decide, by decide, by decide⟩

/-- Whatever the level, a defined index is below `2^_degree_log2` when the mask
is `2^_degree_log2 - 1`. -/
theorem index_lt_of_mask (t : Tree_helper) (vba l v : Nat)
    (hmask : t._degree_mask = 2 ^ t._degree_log2 - 1) (hv : t.index vba l = some v) :
    v < 2 ^ t._degree_log2 := by
  unfold Tree_helper.index at hv
  simp only at hv
  split at hv
  · have hv2 := Option.some.inj hv
    rw [hmask, Nat.and_pow_two_sub_one_eq_mod] at hv2
    rw [← hv2]
    exact lt_of_le_of_lt (Nat.mod_le _ _) (Nat.mod_lt _ (Nat.pow_pos (by decide)))
  · exact absurd hv (by simp)

theorem sub_one_eq_iff (p d : Nat) (hp : 1 ≤ p) (hd : 1 ≤ d) : p - 1 = d - 1 ↔ p = d := by
  omega

theorem two_pow_mul_mod (k m : Nat) (hm : 1 ≤ m) : 2 ^ (k * m) % 2 ^ k = 0 := by
  apply Nat.mod_eq_zero_of_dvd
  apply Nat.pow_dvd_pow
  calc k = k * 1 := (Nat.mul_one k).symm
    _ ≤ k * m := Nat.mul_le_mul_left k hm

/-- C15: for every degree `1 ≤ d < 2^32` the constructor stores
`_degree_log2 = floor(log2 d)` and the mask `2^floor(log2 d) - 1`; the mask
equals `d - 1` exactly when `d` is a power of two; every defined result of
`index` is below `2^floor(log2 d)`, so for a degree that is not a power of two
no slot of `[2^floor(log2 d), d)` is ever returned; and for such a degree two
distinct addresses below `d^h` have the same index at every level `1..h`
(shown for every height `h ≥ 1` with `floor(log2 d) * h < 64`, which includes
`h = 1` for every degree). -/
theorem mask_spec (d h leafs : Nat) (hd : 1 ≤ d) (hd32 : d < U32) :
    ∃ t, Tree_helper.new d h leafs = some t ∧
      2 ^ t._degree_log2 ≤ d ∧ d < 2 ^ (t._degree_log2 + 1) ∧
      t._degree_mask = 2 ^ t._degree_log2 - 1 ∧
      (t._degree_mask = d - 1 ↔ is_power_of_two d) ∧
      (∀ vba l v, t.index vba l = some v → v < 2 ^ t._degree_log2) ∧
      (¬ is_power_of_two d → ∀ vba l v, t.index vba l = some v →
        ¬ (2 ^ t._degree_log2 ≤ v ∧ v < d)) ∧
      (¬ is_power_of_two d → 1 ≤ h → t._degree_log2 * h < 64 →
        ∃ a b, a ≠ b ∧ a < d ^ h ∧ b < d ^ h ∧ a < U64 ∧ b < U64 ∧
          ∀ l, 1 ≤ l → l ≤ h →
            t.index a l = t.index b l ∧ (t.index a l).isSome = true) := by
  obtain ⟨hk31, hlo, hhi⟩ := log2_bounds d hd32 hd
  have hk : _log2 d < 32 := Nat.lt_succ_of_le hk31
  have hpos : 1 ≤ 2 ^ _log2 d := Nat.one_le_two_pow
  have hiff : 2 ^ _log2 d - 1 = d - 1 ↔ is_power_of_two d := by
    rw [sub_one_eq_iff _ _ hpos hd]
    constructor
    · intro h
      exact ⟨_log2 d, h.symm⟩
    · rintro ⟨j, rfl⟩
      rw [log2_two_pow j (pow_two_lt_U32 j hd32)]
  refine ⟨_, new_eq d h leafs hd hd32, hlo, hhi, rfl, hiff, ?_, ?_, ?_⟩
  · intro vba l v hv
    exact index_lt_of_mask _ vba l v rfl hv
  · intro _ vba l v hv hrange
    exact absurd (index_lt_of_mask _ vba l v rfl hv) (Nat.not_lt.2 hrange.1)
  · intro hnp hh1 hsmall
    have hne : 2 ^ _log2 d ≠ d := fun h => hnp ⟨_log2 d, h.symm⟩
    have hlt : 2 ^ _log2 d < d := lt_of_le_of_ne hlo hne
    have hb : 2 ^ (_log2 d * h) < d ^ h := by
      rw [Nat.pow_mul]
      exact Nat.pow_lt_pow_left hlt (Nat.pos_iff_ne_zero.1 hh1)
    have hb64 : 2 ^ (_log2 d * h) < U64 := by
      unfold U64
      exact Nat.pow_lt_pow_right (by decide) hsmall
    refine ⟨0, 2 ^ (_log2 d * h), ?_, Nat.pow_pos (lt_of_lt_of_le Nat.zero_lt_one hd), hb,
      by unfold U64; norm_num, hb64, ?_⟩
    · exact Nat.ne_of_lt (Nat.pow_pos (by decide : 0 < 2))
    · intro l hl1 hlh
      have hl32 : l < U32 := by
        have h1 : h < 64 := by
          rcases Nat.eq_zero_or_pos (_log2 d) with h0 | hp
          · exact absurd (by rw [h0]; rfl : 2 ^ _log2 d = 1) (by omega)
          · exact lt_of_le_of_lt (Nat.le_mul_of_pos_left h hp) hsmall
        exact lt_of_le_of_lt hlh (lt_trans h1 (by unfold U32; norm_num))
      have hc : _log2 d * (l - 1) < 64 :=
        lt_of_le_of_lt (Nat.mul_le_mul_left _ (le_trans (Nat.sub_le l 1) hlh)) hsmall
      have ea := index_eq (Tree_helper.mk d h leafs (_log2 d) (2 ^ _log2 d - 1)) 0 l hk rfl
        hl1 hl32 hc
      have eb := index_eq (Tree_helper.mk d h leafs (_log2 d) (2 ^ _log2 d - 1))
        (2 ^ (_log2 d * h)) l hk rfl hl1 hl32 hc
      have hdiv : 2 ^ (_log2 d * h) / 2 ^ (_log2 d * (l - 1)) =
          2 ^ (_log2 d * (h - (l - 1))) := by
        rw [Nat.pow_div (Nat.mul_le_mul_left _ (le_trans (Nat.sub_le l 1) hlh)) (by decide),
          ← Nat.mul_sub]
      simp only at ea eb
      rw [hdiv, two_pow_mul_mod _ _ (by omega)] at eb
      rw [Nat.zero_div, Nat.zero_mod] at ea
      rw [ea, eb]
      exact ⟨rfl, rfl⟩

/-- Witness for C15: the degree 12, which is no power of two, with height 1. -/
theorem mask_spec_witness :
    ∃ t, Tree_helper.new 12 1 5 = some t ∧ t._degree_mask = 2 ^ t._degree_log2 - 1 ∧
      (t._degree_mask = 12 - 1 ↔ is_power_of_two 12) :=
  (mask_spec 12 1 5 (by decide) (by unfold U32; norm_num)).elim
    fun t ht => ⟨t, ht.1, ht.2.2.2.1, ht.2.2.2.2.1⟩

/-! ### Snapshot directory: discarding and the invalid id -/

theorem snapshot_slot_none (sb : Super_block)
    (h : ¬ ∃ j : Fin NUM_SNAPSHOTS, (sb.snapshots j).valid = true ∧
      (sb.snapshots j).id = sb.snapshot_id) :
    sb.snapshot_slot = Super_block.INVALID_SNAPSHOT_SLOT := by
  apply (snapshot_slot_loop_spec sb NUM_SNAPSHOTS (le_refl _)).2
  rintro ⟨j, _, hv, hid⟩
  exact h ⟨j, hv, hid⟩

theorem snapshot_slot_found (sb : Super_block) (hlt : sb.snapshot_slot < NUM_SNAPSHOTS) :
    (sb.snapshots ⟨sb.snapshot_slot, hlt⟩).valid = true ∧
      (sb.snapshots ⟨sb.snapshot_slot, hlt⟩).id = sb.snapshot_id := by
  have hex : ∃ j : Fin NUM_SNAPSHOTS, (sb.snapshots j).valid = true ∧
      (sb.snapshots j).id = sb.snapshot_id := by
    by_contra hn
    have h48 := snapshot_slot_none sb hn
    unfold Super_block.INVALID_SNAPSHOT_SLOT at h48
    omega
  obtain ⟨j, hv, hid⟩ := hex
  obtain ⟨_, _, h2, h3, _⟩ :=
    (snapshot_slot_loop_spec sb NUM_SNAPSHOTS (le_refl _)).1 ⟨j, by omega, hv, hid⟩
  exact ⟨h2, h3⟩

/-- The loop only looks at whether a slot is valid and carries the wanted id. -/
theorem snapshot_slot_loop_congr (sb other : Super_block)
    (h : ∀ j : Fin NUM_SNAPSHOTS,
      ((sb.snapshots j).valid = true ∧ (sb.snapshots j).id = sb.snapshot_id) ↔
      ((other.snapshots j).valid = true ∧ (other.snapshots j).id = other.snapshot_id)) :
    ∀ n : Nat, sb.snapshot_slot_loop n = other.snapshot_slot_loop n := by
  intro n
  induction n with
  | zero => rfl
  | succ n ih =>
    rw [Super_block.snapshot_slot_loop, Super_block.snapshot_slot_loop]
    by_cases hi : NUM_SNAPSHOTS - (n + 1) < NUM_SNAPSHOTS
    · rw [dif_pos hi, dif_pos hi, ih]
      have hj := h ⟨NUM_SNAPSHOTS - (n + 1), hi⟩
      by_cases hm : (sb.snapshots ⟨NUM_SNAPSHOTS - (n + 1), hi⟩).valid = true ∧
          (sb.snapshots ⟨NUM_SNAPSHOTS - (n + 1), hi⟩).id = sb.snapshot_id
      · have hm2 := hj.1 hm
        simp only [hm.1, hm.2, hm2.1, hm2.2, Bool.not_true, Bool.false_eq_true, if_false,
          beq_self_eq_true, if_true]
      · have hm2 : ¬ ((other.snapshots ⟨NUM_SNAPSHOTS - (n + 1), hi⟩).valid = true ∧
            (other.snapshots ⟨NUM_SNAPSHOTS - (n + 1), hi⟩).id = other.snapshot_id) :=
          fun hc => hm (hj.2 hc)
        have e1 : (if (!(sb.snapshots ⟨NUM_SNAPSHOTS - (n + 1), hi⟩).valid) = true then
              other.snapshot_slot_loop n
            else if ((sb.snapshots ⟨NUM_SNAPSHOTS - (n + 1), hi⟩).id == sb.snapshot_id) = true
              then NUM_SNAPSHOTS - (n + 1) else other.snapshot_slot_loop n) =
            other.snapshot_slot_loop n := by
          by_cases hv : (sb.snapshots ⟨NUM_SNAPSHOTS - (n + 1), hi⟩).valid = true
          · have hne : (sb.snapshots ⟨NUM_SNAPSHOTS - (n + 1), hi⟩).id ≠ sb.snapshot_id :=
              fun hc => hm ⟨hv, hc⟩
            simp only [hv, beq_false_of_ne hne, Bool.not_true, Bool.false_eq_true, if_false]
          · simp only [Bool.not_eq_true] at hv
            simp only [hv, Bool.not_false, if_true]
        have e2 : (if (!(other.snapshots ⟨NUM_SNAPSHOTS - (n + 1), hi⟩).valid) = true then
              other.snapshot_slot_loop n
            else if ((other.snapshots ⟨NUM_SNAPSHOTS - (n + 1), hi⟩).id == other.snapshot_id)
                = true
              then NUM_SNAPSHOTS - (n + 1) else other.snapshot_slot_loop n) =
            other.snapshot_slot_loop n := by
          by_cases hv : (other.snapshots ⟨NUM_SNAPSHOTS - (n + 1), hi⟩).valid = true
          · have hne : (other.snapshots ⟨NUM_SNAPSHOTS - (n + 1), hi⟩).id ≠ other.snapshot_id :=
              fun hc => hm2 ⟨hv, hc⟩
            simp only [hv, beq_false_of_ne hne, Bool.not_true, Bool.false_eq_true, if_false]
          · simp only [Bool.not_eq_true] at hv
            simp only [hv, Bool.not_false, if_true]
        exact e1.trans e2.symm
    · rw [dif_neg hi, dif_neg hi]

/-- C16: discarding the active snapshot makes it unfindable.  For a super-block
whose valid snapshots have pairwise distinct ids and whose `snapshot_slot()`
is a slot `i < 48`, after `snapshots[i].discard()` the function returns
`INVALID_SNAPSHOT_SLOT`; and for every other value of `snapshot_id` the result
of `snapshot_slot()` after the discard is the one before it. -/
theorem discard_active_snapshot (sb : Super_block)
    (hdistinct : ∀ j k : Fin NUM_SNAPSHOTS, (sb.snapshots j).valid = true →
      (sb.snapshots k).valid = true → (sb.snapshots j).id = (sb.snapshots k).id → j = k)
    (hlt : sb.snapshot_slot < NUM_SNAPSHOTS) :
    (sb.discard_slot ⟨sb.snapshot_slot, hlt⟩).snapshot_slot =
      Super_block.INVALID_SNAPSHOT_SLOT ∧
    ∀ sid : Nat, sid ≠ sb.snapshot_id →
      Super_block.snapshot_slot
          { sb.discard_slot ⟨sb.snapshot_slot, hlt⟩ with snapshot_id := sid } =
        Super_block.snapshot_slot { sb with snapshot_id := sid } := by
  obtain ⟨hv, hid⟩ := snapshot_slot_found sb hlt
  constructor
  · apply snapshot_slot_none
    rintro ⟨j, hjv, hjid⟩
    by_cases hj : j = ⟨sb.snapshot_slot, hlt⟩
    · have hd : ((sb.discard_slot ⟨sb.snapshot_slot, hlt⟩).snapshots j).valid = false := by
        simp [Super_block.discard_slot, hj, Snapshot.discard, Snapshot.valid]
      rw [hd] at hjv
      exact Bool.noConfusion hjv
    · have hs : (sb.discard_slot ⟨sb.snapshot_slot, hlt⟩).snapshots j = sb.snapshots j := by
        simp [Super_block.discard_slot, hj]
      rw [hs] at hjv hjid
      have hid2 : (sb.snapshots j).id = sb.snapshot_id := hjid
      exact hj (hdistinct j ⟨sb.snapshot_slot, hlt⟩ hjv hv (hid2.trans hid.symm))
  · intro sid hsid
    apply snapshot_slot_loop_congr
    intro j
    by_cases hj : j = ⟨sb.snapshot_slot, hlt⟩
    · subst hj
      have hd : ((sb.discard_slot ⟨sb.snapshot_slot, hlt⟩).snapshots
          ⟨sb.snapshot_slot, hlt⟩).valid = false := by
        simp [Super_block.discard_slot, Snapshot.discard, Snapshot.valid]
      constructor
      · rintro ⟨h1, _⟩
        have h2 : ((sb.discard_slot ⟨sb.snapshot_slot, hlt⟩).snapshots
            ⟨sb.snapshot_slot, hlt⟩).valid = true := h1
        rw [hd] at h2
        exact Bool.noConfusion h2
      · rintro ⟨_, h1⟩
        have h2 : (sb.snapshots ⟨sb.snapshot_slot, hlt⟩).id = sid := h1
        exact absurd (h2.symm.trans hid) hsid
    · have hs : (sb.discard_slot ⟨sb.snapshot_slot, hlt⟩).snapshots j = sb.snapshots j := by
        simp [Super_block.discard_slot, hj]
      show ((sb.discard_slot ⟨sb.snapshot_slot, hlt⟩).snapshots j).valid = true ∧
          ((sb.discard_slot ⟨sb.snapshot_slot, hlt⟩).snapshots j).id = sid ↔
        (sb.snapshots j).valid = true ∧ (sb.snapshots j).id = sid
      rw [hs]

theorem example_super_block_slot : example_super_block.snapshot_slot = 7 := by decide

/-- Witness for C16: in the example directory the ids `100..147` are distinct
and the active id 107 sits in slot 7. -/
theorem discard_active_snapshot_witness :
    ∃ hlt : example_super_block.snapshot_slot < NUM_SNAPSHOTS,
      (example_super_block.discard_slot ⟨example_super_block.snapshot_slot, hlt⟩).snapshot_slot =
        Super_block.INVALID_SNAPSHOT_SLOT :=
  have hlt : example_super_block.snapshot_slot < NUM_SNAPSHOTS := by
    rw [example_super_block_slot]
    decide
  ⟨hlt, (discard_active_snapshot example_super_block
    (fun j k _ _ h => Fin.ext (Nat.add_right_cancel h)) hlt).1⟩

/-- C17: a super-block whose `snapshot_id` is `Snapshot::INVALID_ID = 2^32 - 1`
has no active slot: `snapshot_slot()` returns `INVALID_SNAPSHOT_SLOT` whatever
the snapshot array holds.  And for every `snapshot_id` a returned slot holds a
valid snapshot, so an empty (discarded) slot is never returned. -/
theorem snapshot_slot_invalid_id (sb : Super_block) :
    (sb.snapshot_id = Snapshot.INVALID_ID →
      sb.snapshot_slot = Super_block.INVALID_SNAPSHOT_SLOT) ∧
    Snapshot.INVALID_ID = 2 ^ 32 - 1 ∧
    (∀ hlt : sb.snapshot_slot < NUM_SNAPSHOTS,
      (sb.snapshots ⟨sb.snapshot_slot, hlt⟩).valid = true ∧
      (sb.snapshots ⟨sb.snapshot_slot, hlt⟩).id ≠ Snapshot.INVALID_ID ∧
      sb.snapshots ⟨sb.snapshot_slot, hlt⟩ ≠ (sb.snapshots ⟨sb.snapshot_slot, hlt⟩).discard) := by
  refine ⟨?_, rfl, ?_⟩
  · intro hinv
    apply snapshot_slot_none
    rintro ⟨j, hv, hid⟩
    exact (snapshot_valid_iff _).1 hv (hid.trans hinv)
  · intro hlt
    obtain ⟨hv, _⟩ := snapshot_slot_found sb hlt
    have hne := (snapshot_valid_iff _).1 hv
    refine ⟨hv, hne, ?_⟩
    intro heq
    apply hne
    rw [heq]
    rfl

/-! ### Super-block size -/

/-- C18: the super-block fits one disk sector.  A key takes 68 bytes; the
members of `Super_block` (2 keys, 48 snapshots, `last_secured_generation`,
`snapshot_id`, `degree` and the six members of the free-tree root) take 3480
bytes without padding and 3672 bytes when every snapshot is laid out with the
padding of its anonymous structure, both at most `BLOCK_SIZE = 4096`; hence
`sizeof (Super_block) = sizeof (Block_data) = 4096` and the condition of the
`static_assert` holds. -/
theorem super_block_size :
    sizeof_Key = 68 ∧ Super_block.NUM_KEYS = 2 ∧ NUM_SNAPSHOTS = 48 ∧
    Snapshot.fields_size = 68 ∧ sizeof_Snapshot = 72 ∧
    Super_block.fields_size = 3480 ∧ Super_block.struct_size = 3672 ∧
    Super_block.fields_size ≤ BLOCK_SIZE ∧ Super_block.struct_size ≤ BLOCK_SIZE ∧
    BLOCK_SIZE = 4096 ∧
    sizeof_Super_block = 4096 ∧ sizeof_Block_data = 4096 ∧
    sizeof_Super_block = sizeof_Block_data ∧
    super_block_static_assert = true := by
  refine ⟨by decide, rfl, rfl, by decide, by decide, by decide, by decide, by decide, by decide,
    rfl, by decide, by decide, by decide, by decide⟩

/-! ### Tags: distinctness -/

/-- C19: the 19 enumerators of `Tag` have pairwise distinct values; the low
byte of `VBD_CACHE_TAG`, `FREE_TREE_TAG_IO`, `FREE_TREE_TAG_CACHE`,
`FREE_TREE_TAG_WB` is `CACHE_TAG`, `IO_TAG`, `CACHE_TAG`, `WRITE_BACK_TAG` and
their remaining bits are `VBD_TAG` resp. `FREE_TREE_TAG`; a value composed of
a meta-module tag and a module tag determines both; hence `Primitive::equal`
is false for two primitives that carry different enumerators. -/
theorem tags_distinct :
    all_tags.length = 19 ∧ all_tags.Nodup ∧
    VBD_CACHE_TAG &&& 0xFF = CACHE_TAG ∧
     FREE_TREE_TAG_IO &&& 0xFF = IO_TAG ∧
    FREE_TREE_TAG_CACHE &&& 0xFF = CACHE_TAG ∧
    FREE_TREE_TAG_WB &&& 0xFF = WRITE_BACK_TAG ∧
    VBD_CACHE_TAG &&& 0xFFFFFF00 = VBD_TAG ∧
     FREE_TREE_TAG_IO &&& 0xFFFFFF00 = FREE_TREE_TAG ∧
    FREE_TREE_TAG_CACHE &&& 0xFFFFFF00 = FREE_TREE_TAG ∧
    FREE_TREE_TAG_WB &&& 0xFFFFFF00 = FREE_TREE_TAG ∧
    (∀ m ∈ meta_tags, ∀ p ∈ module_tags, ∀ m2 ∈ meta_tags, ∀ p2 ∈ module_tags,
      m ||| p = m2 ||| p2 → m = m2 ∧ p = p2) ∧
    (∀ m ∈ meta_tags, ∀ p ∈ module_tags,
      (m ||| p) &&& 0xFF = p ∧ (m ||| p) &&& 0xFFFFFF00 = m) ∧
    (∀ i j : Fin all_tags.length, i ≠ j → ∀ a b : Primitive,
      a.tag = all_tags.get i → b.tag = all_tags.get j → a.equal b = false) := by
  have hnodup : all_tags.Nodup := by decide
  refine ⟨rfl, hnodup, by decide, by decide, by decide, by decide, by decide, by decide,
    by decide, by decide, by decide, by decide, ?_⟩
  intro i j hij a b ha hb
  have hne : a.tag ≠ b.tag := by
    rw [ha, hb]
    intro h
    exact hij ((List.Nodup.get_inj_iff hnodup).1 h)
  unfold Primitive.equal
  rw [beq_false_of_ne hne]
  rfl

end Cbe
